import Mathlib

/-!
Shallow embedding of the trivia API backend (`backend/flaskr/__init__.py`).

The repository's `models.py` (the SQLAlchemy `Question`/`Category` models with
`format`, `insert`, `delete` and `setup_db`) is not part of the sources; its
record shapes and storage behaviour are modelled from the spec (section 3) where
noted below.  The HTTP layer is embedded by making every implicit input of a
handler explicit: the question store and category store (lists of records, the
relational tables), the `page` query argument (`Option Int`, `none` when
absent), the parsed JSON body, and a `dbFail` flag standing for a storage-layer
exception inside the handler's `try` block.  Handlers that mutate the store
return the new store together with the response; `db.session.rollback()`
corresponds to returning the store unchanged.
-/

namespace Trivia

/-- Modelled from the spec (models.py is absent from the sources): a `Question`
record has a unique server-generated id, question text, answer text, a category
reference and a difficulty.  Text is a list of characters.  `format()` maps a
record to the JSON object of exactly these five fields, an injective
re-packaging, so it is modelled as the identity. -/
structure Question where
  id : Nat
  question : List Char
  answer : List Char
  category : Nat
  difficulty : Nat
deriving DecidableEq, Repr

/-- Modelled from the spec: `Question.format()` returns the record's fields as a
JSON object; since that is a bijective re-packaging we model it as the
identity. -/
def Question.format (q : Question) : Question := q

/-- Modelled from the spec (models.py is absent): a `Category` record. -/
structure Category where
  id : Nat
  type : List Char
deriving DecidableEq, Repr

/-- Modelled from the spec: `Category.format()`, identity for the same reason as
`Question.format`. -/
def Category.format (c : Category) : Category := c

/-- A handler outcome: either a JSON success payload or `abort(code)` routed to
the matching error handler (`{success: false, error: code, ...}`). -/
inductive Resp (α : Type) where
  | ok : α → Resp α
  | err : Nat → Resp α
deriving DecidableEq, Repr

/-- `QUESTIONS_PER_PAGE = 10`. -/
def QUESTIONS_PER_PAGE : Nat := 10

/-- Clamp one Python slice bound for a list of length `n`: a negative index
counts from the end (`max 0 (n + i)`), a non-negative one is capped at `n`. -/
def pyIndex (n : Nat) (i : Int) : Nat :=
  if i < 0 then ((n : Int) + i).toNat else min i.toNat n

/-- Python's `l[a:b]` (step 1): elements from clamped index `a` (inclusive) to
clamped index `b` (exclusive). -/
def pySlice (l : List α) (a b : Int) : List α :=
  (l.take (pyIndex l.length b)).drop (pyIndex l.length a)

/-- `paginate_questions(request, selection)`: reads `page` from the query string
(default 1), computes `start = (page-1)*10`, `end = start+10`, formats every
question of `selection` and returns the Python slice `questions[start:end]`. -/
def paginate_questions (page : Int) (selection : List Question) : List Question :=
  let start : Int := (page - 1) * (QUESTIONS_PER_PAGE : Nat)
  let stop : Int := start + (QUESTIONS_PER_PAGE : Nat)
  let questions := selection.map Question.format
  pySlice questions start stop

/-- The SQL ordering `order_by(Question.id)`: ascending ids. -/
def qle (a b : Question) : Prop := a.id ≤ b.id

instance : DecidableRel qle := fun a b => Nat.decLe a.id b.id

instance : IsTotal Question qle := ⟨fun a b => Nat.le_total a.id b.id⟩

instance : IsTrans Question qle := ⟨fun _ _ _ => Nat.le_trans⟩

/-- `Question.query.order_by(Question.id).all()` applied to a table: the rows
sorted by ascending id. -/
def orderById (l : List Question) : List Question := l.insertionSort qle

/-- Success payload of `GET /questions`. -/
structure ListResponse where
  questions : List Question
  total_questions : Nat
  categories : List Category
  current_category : List Nat
deriving DecidableEq, Repr

/-- `get_questions` (route `GET /questions`): fetch all questions ordered by id,
paginate at the request's `page` argument (default 1 when absent), `abort(404)`
when the resulting slice is empty, otherwise answer with the slice, the total
count and all categories. -/
def get_questions (qs : List Question) (cs : List Category) (page : Option Int) :
    Resp ListResponse :=
  let questions := orderById qs
  let current_questions :=
    if questions.length > 0 then paginate_questions (page.getD 1) questions else []
  if current_questions.length = 0 then
    .err 404
  else
    .ok ⟨current_questions, questions.length, cs.map Category.format, []⟩

/-- Success payload of `DELETE /questions/{id}`. -/
structure DeleteResponse where
  questions : List Question
  total_questions : Nat
  deleted : Nat
deriving DecidableEq, Repr

/-- `remove_question` (route `DELETE /questions/<id>`): `one_or_none()` on the
rows with the given id — no row aborts 404, several rows raise outside the
`try` (500 via the generic handler).  On the unique row, `question.delete()`
removes it (modelled from the spec, models.py being absent); a storage failure
anywhere in the `try` (`dbFail`) rolls the session back — store unchanged — and
aborts 422.  On success the remaining rows are re-queried ordered by id and
paginated at the request's `page` argument (default 1). -/
def remove_question (qs : List Question) (id : Nat) (page : Option Int)
    (dbFail : Bool) : List Question × Resp DeleteResponse :=
  match qs.filter (fun q => q.id == id) with
  | [] => (qs, .err 404)
  | [_] =>
    if dbFail then (qs, .err 422)
    else
      let qs' := qs.eraseP (fun q => q.id == id)
      let questions_remain := orderById qs'
      let current_questions := paginate_questions (page.getD 1) questions_remain
      (qs', .ok ⟨current_questions, questions_remain.length, id⟩)
  | _ => (qs, .err 500)

/-- The four body fields of `POST /questions`.  The handler reads each with
`body.get(key, None)`; a body with every field present is the only creation
path the claims exercise — a body missing fields inserts nulls whose acceptance
is storage-dependent and is covered by the `dbFail` flag. -/
structure CreateBody where
  question : List Char
  answer : List Char
  category : Nat
  difficulty : Nat
deriving DecidableEq, Repr

/-- Modelled from the spec (models.py is absent): `Question(...).insert()`
persists the new row and the store assigns it a fresh server-generated unique
id, supplied here as the `fresh` parameter. -/
def insertQuestion (qs : List Question) (fresh : Nat) (b : CreateBody) :
    List Question :=
  qs ++ [⟨fresh, b.question, b.answer, b.category, b.difficulty⟩]

/-- Success payload of `POST /questions`. -/
structure CreateResponse where
  questions : List Question
  total_questions : Nat
  created : Nat
deriving DecidableEq, Repr

/-- `create_question` (route `POST /questions`): `request.get_json()` runs
before the `try` block and raises `BadRequest` (400) on an absent or
unparseable body (`body = none`), so an empty body never reaches storage.
Otherwise the new question is inserted; a storage failure (`dbFail`) rolls back
and aborts 422; on success the full listing is re-queried ordered by id,
paginated at the request's `page` argument, and returned with the new total and
the created id. -/
def create_question (qs : List Question) (body : Option CreateBody)
    (page : Option Int) (fresh : Nat) (dbFail : Bool) :
    List Question × Resp CreateResponse :=
  match body with
  | none => (qs, .err 400)
  | some b =>
    if dbFail then (qs, .err 422)
    else
      let qs' := insertQuestion qs fresh b
      let questions := orderById qs'
      let current_questions := paginate_questions (page.getD 1) questions
      (qs', .ok ⟨current_questions, questions.length, fresh⟩)

/-- SQL `LIKE`/`ILIKE` pattern matching, case-insensitive (`ILIKE`): `%`
matches any (possibly empty) substring, `_` matches exactly one character, any
other pattern character matches one text character up to lower-casing. -/
def likeMatch : List Char → List Char → Bool
  | [], t => t.isEmpty
  | c :: p, t =>
    if c = '%' then t.tails.any (fun suf => likeMatch p suf)
    else
      match t with
      | [] => false
      | d :: t' => (if c = '_' then true else c.toLower == d.toLower) && likeMatch p t'

/-- Success payload of `POST /questions/search`. -/
structure SearchResponse where
  questions : List Question
  total_questions : Nat
  current_category : List Nat
deriving DecidableEq, Repr

/-- The match set of `search_question` (route `POST /questions/search`): the
rows whose text matches `ilike("%" + term + "%")`, ordered by id.  The handler
reads `searchTerm` from
the JSON body (`none` when the key or the body is absent).  A falsy term — the
empty string or an absent one — aborts 400 without touching storage.  Otherwise
the rows whose text matches `ilike("%" + term + "%")` are fetched ordered by
id; no match aborts 404; otherwise the match set is paginated at the request's
`page` argument and returned with the full match count and
`current_category = []`. -/
def searchMatches (qs : List Question) (t : List Char) : List Question :=
  (orderById qs).filter (fun q => likeMatch ('%' :: (t ++ ['%'])) q.question)

/-- Handler body of `POST /questions/search`; see the comment above
`searchMatches` for the query it issues. -/
def search_question (qs : List Question) (searchTerm : Option (List Char))
    (page : Option Int) : Resp SearchResponse :=
  match searchTerm with
  | some t =>
    if t ≠ [] then
      let questions := searchMatches qs t
      if questions.length = 0 then .err 404
      else
        let current_questions := paginate_questions (page.getD 1) questions
        .ok ⟨current_questions, questions.length, []⟩
    else .err 400
  | none => .err 400

/-- Success payload of `GET /categories/{id}/questions`. -/
structure CategoryQuestionsResponse where
  current_category : Nat
  questions : List Question
  total_questions : Nat
deriving DecidableEq, Repr

/-- `get_questions_of_category` (route `GET /categories/<cat_id>/questions`):
all rows of the category ordered by id, formatted when the set is non-empty,
always answered with success — an empty category yields an empty array, never
an error. -/
def get_questions_of_category (qs : List Question) (cat_id : Nat) :
    Resp CategoryQuestionsResponse :=
  let questions := orderById (qs.filter (fun q => q.category == cat_id))
  let formatted_questions :=
    if questions.length > 0 then questions.map Question.format else []
  .ok ⟨cat_id, formatted_questions, questions.length⟩

/-- Success payload of `POST /quizzes`. -/
structure QuizResponse where
  question : Question
deriving DecidableEq, Repr

/-- The quiz candidate set: the stored questions, restricted to the given
category when one is supplied, minus those whose id is in `prev` — the two
`filter` calls of the handler. -/
def quizCandidates (qs : List Question) (prev : List Nat)
    (category : Option Nat) : List Question :=
  match category with
  | none => qs.filter (fun q => !(prev.contains q.id))
  | some c => (qs.filter (fun q => q.category == c)).filter (fun q => !(prev.contains q.id))

/-- `play_quiz` (route `POST /quizzes`): everything runs inside one `try`, so
any failure aborts 422 after rollback: a storage error (`dbFail`), a missing or
malformed `previous_questions` (`notin_(None)` raises; modelled as
`prev = none`), and `random.choice` on an empty candidate list (IndexError).
Otherwise `random.choice` picks index `rand mod n` of the candidates — uniform
when `rand` is uniform — and the chosen question is returned formatted. -/
def play_quiz (qs : List Question) (prev : Option (List Nat))
    (category : Option Nat) (rand : Nat) (dbFail : Bool) : Resp QuizResponse :=
  if dbFail then .err 422
  else
    match prev with
    | none => .err 422
    | some prev =>
      let questions := quizCandidates qs prev category
      if h : questions.length = 0 then .err 422
      else
        .ok ⟨(questions.get ⟨rand % questions.length,
          Nat.mod_lt _ (Nat.pos_of_ne_zero h)⟩).format⟩

/-! ### Basic lemmas about the embedded operations -/

theorem map_format (l : List Question) : l.map Question.format = l :=
  List.map_id' l

theorem orderById_perm (l : List Question) : (orderById l).Perm l :=
  List.perm_insertionSort qle l

theorem orderById_sorted (l : List Question) : List.Sorted qle (orderById l) :=
  List.sorted_insertionSort qle l

theorem length_orderById (l : List Question) : (orderById l).length = l.length :=
  (orderById_perm l).length_eq

theorem mem_orderById {q : Question} {l : List Question} :
    q ∈ orderById l ↔ q ∈ l :=
  (orderById_perm l).mem_iff

theorem pySlice_nil (a b : Int) : pySlice ([] : List α) a b = [] := by
  simp [pySlice]

theorem pySlice_subset (l : List α) (a b : Int) : pySlice l a b ⊆ l := by
  intro x hx
  have h1 : x ∈ l.take (pyIndex l.length b) := List.mem_of_mem_drop hx
  exact List.take_subset _ _ h1

theorem pySlice_eq_nil_of_ge {l : List α} {a : Int} (h : (l.length : Int) ≤ a)
    (b : Int) : pySlice l a b = [] := by
  have ha : pyIndex l.length a = l.length := by
    unfold pyIndex
    have h0 : ¬ a < 0 := by omega
    simp only [h0, if_false]
    omega
  unfold pySlice
  rw [ha]
  exact List.drop_eq_nil_of_le (by rw [List.length_take]; omega)

theorem paginate_nil (p : Int) : paginate_questions p [] = [] := by
  simp [paginate_questions, pySlice_nil]

theorem paginate_subset (p : Int) (l : List Question) :
    paginate_questions p l ⊆ l := by
  intro x hx
  have := pySlice_subset (l.map Question.format) ((p - 1) * (QUESTIONS_PER_PAGE : Nat))
    ((p - 1) * (QUESTIONS_PER_PAGE : Nat) + (QUESTIONS_PER_PAGE : Nat)) hx
  rwa [map_format] at this

theorem paginate_eq_nil_of_ge {l : List Question} {p : Int}
    (h : (l.length : Int) ≤ (p - 1) * 10) : paginate_questions p l = [] := by
  unfold paginate_questions
  rw [map_format]
  exact pySlice_eq_nil_of_ge (by simpa [QUESTIONS_PER_PAGE] using h) _

/-- `get_questions` in closed form: 404 exactly when the page slice of the
sorted sequence is empty, the success payload otherwise. -/
theorem get_questions_eq (qs : List Question) (cs : List Category)
    (page : Option Int) :
    get_questions qs cs page =
      if paginate_questions (page.getD 1) (orderById qs) = [] then .err 404
      else .ok ⟨paginate_questions (page.getD 1) (orderById qs), qs.length,
        cs.map Category.format, []⟩ := by
  unfold get_questions
  by_cases h : orderById qs = []
  · simp [h, paginate_nil]
  · have hl : (orderById qs).length > 0 := List.length_pos.mpr h
    have hl2 : qs.length > 0 := by rwa [length_orderById] at hl
    simp only [hl, hl2, if_true, List.length_eq_zero, length_orderById]

theorem paginate_page_zero (l : List Question) : paginate_questions 0 l = [] := by
  simp only [paginate_questions, pySlice, map_format]
  have h0 : pyIndex l.length ((0 - 1) * ((QUESTIONS_PER_PAGE : Nat) : Int) +
      (QUESTIONS_PER_PAGE : Nat)) = 0 := by
    simp only [pyIndex, QUESTIONS_PER_PAGE]
    norm_num
  rw [h0]
  simp

/-! ### Claim theorems -/

/-- C1: `GET /questions` fetches all questions ordered by id ascending and
returns exactly the slice `[(p-1)*10 : p*10)` of the formatted sequence (page
defaulting to 1 when absent), with `total_questions` equal to the count of all
questions; it fails with 404 exactly when that slice is empty, in particular
for every page `p > ceil(total/10)`. -/
theorem C1_listQuestions_pagination (qs : List Question) (cs : List Category)
    (page : Option Int) :
    List.Sorted qle (orderById qs) ∧
    (get_questions qs cs page = .err 404 ↔
      paginate_questions (page.getD 1) (orderById qs) = []) ∧
    (∀ res, get_questions qs cs page = .ok res →
      res.questions = paginate_questions (page.getD 1) (orderById qs) ∧
      res.total_questions = qs.length) ∧
    (∀ p : Int, (((qs.length + 9) / 10 : Nat) : Int) < p →
      get_questions qs cs (some p) = .err 404) := by
  refine ⟨orderById_sorted qs, ?_, ?_, ?_⟩
  · rw [get_questions_eq]
    by_cases h : paginate_questions (page.getD 1) (orderById qs) = []
    · simp [h]
    · simp [h]
  · intro res hres
    rw [get_questions_eq] at hres
    by_cases h : paginate_questions (page.getD 1) (orderById qs) = []
    · rw [if_pos h] at hres
      cases hres
    · rw [if_neg h] at hres
      injection hres with h2
      rw [← h2]
      exact ⟨rfl, rfl⟩
  · intro p hp
    rw [get_questions_eq]
    have hle : ((orderById qs).length : Int) ≤ (p - 1) * 10 := by
      rw [length_orderById]
      omega
    simp [paginate_eq_nil_of_ge hle]

/-- C9: page 0 computes the always-empty Python slice `[-10:0)`, so
`GET /questions?page=0` is 404 regardless of the store; a negative page is
interpreted with Python negative-index semantics, so with more than 20 stored
questions `page=-1` succeeds and returns the 10 questions at positions
`total-20 .. total-11` of the ascending-id order. -/
theorem C9_page_zero_and_negative (qs : List Question) (cs : List Category)
    (h : 20 < qs.length) :
    (∀ (qs' : List Question) (cs' : List Category),
      get_questions qs' cs' (some 0) = .err 404) ∧
    (∃ res, get_questions qs cs (some (-1)) = .ok res ∧
      res.questions = ((orderById qs).drop (qs.length - 20)).take 10 ∧
      res.questions.length = 10) := by
  constructor
  · intro qs' cs'
    rw [get_questions_eq]
    simp [paginate_page_zero]
  · have hn : (orderById qs).length = qs.length := length_orderById qs
    have hslice : paginate_questions (-1) (orderById qs) =
        ((orderById qs).drop (qs.length - 20)).take 10 := by
      simp only [paginate_questions, pySlice, map_format]
      have h1 : pyIndex (orderById qs).length
          ((-1 - 1) * ((QUESTIONS_PER_PAGE : Nat) : Int)) = qs.length - 20 := by
        simp only [pyIndex, QUESTIONS_PER_PAGE, hn]
        norm_num
        omega
      have h2 : pyIndex (orderById qs).length
          ((-1 - 1) * ((QUESTIONS_PER_PAGE : Nat) : Int) +
            ((QUESTIONS_PER_PAGE : Nat) : Int)) = qs.length - 10 := by
        simp only [pyIndex, QUESTIONS_PER_PAGE, hn]
        norm_num
        omega
      rw [h1, h2, List.drop_take]
      congr 1
      omega
    have hlen : (((orderById qs).drop (qs.length - 20)).take 10).length = 10 := by
      rw [List.length_take, List.length_drop, hn]
      omega
    refine ⟨⟨((orderById qs).drop (qs.length - 20)).take 10, qs.length,
      cs.map Category.format, []⟩, ?_, rfl, hlen⟩
    rw [get_questions_eq]
    have hne : paginate_questions ((some (-1 : Int)).getD 1) (orderById qs) ≠ [] := by
      simp only [Option.getD, hslice]
      intro hcon
      rw [hcon] at hlen
      simp at hlen
    rw [if_neg hne]
    simp only [Option.getD, hslice]

/-- `search_question` on a non-empty term, in closed form. -/
theorem search_question_eq (qs : List Question) (t : List Char)
    (page : Option Int) (ht : t ≠ []) :
    search_question qs (some t) page =
      if (searchMatches qs t).length = 0 then .err 404
      else .ok ⟨paginate_questions (page.getD 1) (searchMatches qs t),
        (searchMatches qs t).length, []⟩ := by
  simp only [search_question]
  rw [if_pos ht]

/-- C6: `GET /categories/{id}/questions` always succeeds and returns all
questions of the category ordered by id ascending with no pagination, plus
their count; an empty match set yields a successful empty sequence — asymmetric
with the global listing, which 404s whenever its page slice is empty. -/
theorem C6_category_listing (qs : List Question) (cat : Nat) (cs : List Category)
    (page : Option Int) :
    (get_questions_of_category qs cat =
      .ok ⟨cat, orderById (qs.filter (fun q => q.category == cat)),
        (qs.filter (fun q => q.category == cat)).length⟩) ∧
    List.Sorted qle (orderById (qs.filter (fun q => q.category == cat))) ∧
    (qs.filter (fun q => q.category == cat) = [] →
      get_questions_of_category qs cat = .ok ⟨cat, [], 0⟩) ∧
    (paginate_questions (page.getD 1) (orderById qs) = [] →
      get_questions qs cs page = .err 404) := by
  refine ⟨?_, orderById_sorted _, ?_, ?_⟩
  · simp only [get_questions_of_category]
    by_cases h : orderById (qs.filter (fun q => q.category == cat)) = []
    · have h0 : (qs.filter (fun q => q.category == cat)).length = 0 := by
        rw [← length_orderById, h]
        rfl
      rw [h, h0]
      simp
    · have hl : (orderById (qs.filter (fun q => q.category == cat))).length > 0 :=
        List.length_pos.mpr h
      rw [if_pos hl, map_format, length_orderById]
  · intro h
    simp only [get_questions_of_category, h]
    rfl
  · intro h
    rw [get_questions_eq, if_pos h]

/-- C10: for a non-empty term with at least one match, the 404 check runs
against the full match set before slicing, so an out-of-range page still
succeeds with an empty `questions` list and `total_questions` equal to the full
match count — unlike `GET /questions`, where an out-of-range page is 404. -/
theorem C10_search_page_beyond_matches (qs : List Question) (cs : List Category)
    (t : List Char) (p : Int) (ht : t ≠ []) (hm : searchMatches qs t ≠ [])
    (hp : ((searchMatches qs t).length : Int) ≤ (p - 1) * 10) :
    search_question qs (some t) (some p) =
      .ok ⟨[], (searchMatches qs t).length, []⟩ ∧
    ((qs.length : Int) ≤ (p - 1) * 10 → get_questions qs cs (some p) = .err 404) := by
  constructor
  · rw [search_question_eq qs t (some p) ht]
    have hl : (searchMatches qs t).length ≠ 0 := by
      intro hcon
      exact hm (List.length_eq_zero.mp hcon)
    rw [if_neg hl]
    have hslice : paginate_questions ((some p).getD 1) (searchMatches qs t) = [] :=
      paginate_eq_nil_of_ge (by simpa using hp)
    rw [hslice]
  · intro hq
    rw [get_questions_eq]
    have hle : ((orderById qs).length : Int) ≤ ((some p).getD 1 - 1) * 10 := by
      rw [length_orderById]
      simpa using hq
    rw [if_pos (paginate_eq_nil_of_ge hle)]

/-! ### Case-insensitive substring containment and the `ILIKE` matcher -/

/-- `t` is a case-insensitive initial segment of `s`. -/
def lowerEqPre : List Char → List Char → Bool
  | [], _ => true
  | _ :: _, [] => false
  | c :: t, d :: s => (c.toLower == d.toLower) && lowerEqPre t s

/-- `s` contains `t` as a case-insensitive substring: some suffix of `s` starts
with `t` up to lower-casing. -/
def containsCI (t s : List Char) : Bool :=
  s.tails.any (fun suf => lowerEqPre t suf)

/-- The search term contains no SQL `LIKE` wildcard. -/
def wildcardFree (t : List Char) : Prop := '%' ∉ t ∧ '_' ∉ t

instance (t : List Char) : Decidable (wildcardFree t) :=
  inferInstanceAs (Decidable (_ ∧ _))

theorem lowerEqPre_iff : ∀ (t u : List Char),
    lowerEqPre t u = true ↔ ∃ w, u.map Char.toLower = t.map Char.toLower ++ w
  | [], u => by simp [lowerEqPre]
  | c :: t, [] => by simp [lowerEqPre]
  | c :: t, d :: u => by
    simp only [lowerEqPre, List.map_cons, Bool.and_eq_true, beq_iff_eq,
      List.cons_append, List.cons_eq_cons, lowerEqPre_iff t u]
    constructor
    · rintro ⟨hc, w, hw⟩
      exact ⟨w, hc.symm, hw⟩
    · rintro ⟨w, hc, hw⟩
      exact ⟨hc.symm, w, hw⟩

/-- `containsCI` really is case-insensitive substring containment. -/
theorem containsCI_iff (t s : List Char) :
    containsCI t s = true ↔
      ∃ u v, s.map Char.toLower = u ++ t.map Char.toLower ++ v := by
  unfold containsCI
  rw [List.any_eq_true]
  constructor
  · rintro ⟨suf, hmem, hpre⟩
    obtain ⟨pre, hps⟩ := (List.mem_tails suf s).mp hmem
    obtain ⟨w, hw⟩ := (lowerEqPre_iff t suf).mp hpre
    refine ⟨pre.map Char.toLower, w, ?_⟩
    rw [← hps, List.map_append, hw, List.append_assoc]
  · rintro ⟨u, v, huv⟩
    rw [List.append_assoc] at huv
    obtain ⟨s₁, s₂, hs, _, h₂⟩ := List.map_eq_append_iff.mp huv
    refine ⟨s₂, (List.mem_tails s₂ s).mpr ⟨s₁, hs.symm⟩, ?_⟩
    exact (lowerEqPre_iff t s₂).mpr ⟨v, h₂⟩

theorem likeMatch_percent_nil (s : List Char) : likeMatch ['%'] s = true := by
  have h : likeMatch ['%'] s = s.tails.any (fun suf => likeMatch [] suf) := rfl
  rw [h, List.any_eq_true]
  exact ⟨[], (List.mem_tails [] s).mpr List.nil_suffix, rfl⟩

/-- On a wildcard-free prefix the matcher is exactly the case-insensitive
initial-segment test, the trailing `%` absorbing the rest of the text. -/
theorem likeMatch_append_percent :
    ∀ (t : List Char), '%' ∉ t → '_' ∉ t →
      ∀ s, likeMatch (t ++ ['%']) s = lowerEqPre t s
  | [], _, _, s => by
    simpa [lowerEqPre] using likeMatch_percent_nil s
  | c :: t, hp, hu, s => by
    have hc1 : ¬ c = '%' := fun h => hp (by simp [h])
    have hc2 : ¬ c = '_' := fun h => hu (by simp [h])
    have hp' : '%' ∉ t := fun h => hp (List.mem_cons_of_mem _ h)
    have hu' : '_' ∉ t := fun h => hu (List.mem_cons_of_mem _ h)
    cases s with
    | nil =>
      simp only [List.cons_append, likeMatch, if_neg hc1, lowerEqPre]
    | cons d s' =>
      simp only [List.cons_append, likeMatch, if_neg hc1, if_neg hc2, lowerEqPre]
      congr 1
      exact likeMatch_append_percent t hp' hu' s'

/-- For a wildcard-free term the query predicate `ilike("%t%")` coincides with
case-insensitive substring containment. -/
theorem likeMatch_eq_containsCI (t : List Char) (hw : wildcardFree t)
    (s : List Char) :
    likeMatch ('%' :: (t ++ ['%'])) s = containsCI t s := by
  have h1 : likeMatch ('%' :: (t ++ ['%'])) s =
      s.tails.any (fun suf => likeMatch (t ++ ['%']) suf) := rfl
  rw [h1]
  unfold containsCI
  simp only [likeMatch_append_percent t hw.1 hw.2]

/-- C2 counterexample: the claim as stated fails because `ilike` treats `%`
and `_` as wildcards, not literal characters.  Searching for the term `"_"`
against a store whose only question text is `"Q"` succeeds and returns that
question, yet `"Q"` does not contain `"_"` as a case-insensitive substring. -/
theorem C2_counterexample :
    search_question [⟨1, ['Q'], ['A'], 1, 1⟩] (some ['_']) none =
      .ok ⟨[⟨1, ['Q'], ['A'], 1, 1⟩], 1, []⟩ ∧
    containsCI ['_'] ['Q'] = false := by
  decide

/-- C2 (amended): for `POST /questions/search`, an empty or absent term is 400
before any storage access; for a non-empty term the rows are matched with
`ilike("%term%")`, in which `%` and `_` are wildcards; for a term containing
neither wildcard this is exactly case-insensitive substring containment, so no
containing question means 404, and otherwise the call succeeds with every
returned question's text containing the term case-insensitively and
`current_category` fixed to the empty list. -/
theorem C2_search_contract (qs : List Question) (t : List Char)
    (page : Option Int) (hw : wildcardFree t) :
    (∀ (qs' : List Question) (page' : Option Int),
      search_question qs' none page' = .err 400) ∧
    (∀ (qs' : List Question) (page' : Option Int),
      search_question qs' (some []) page' = .err 400) ∧
    (t ≠ [] →
      ((search_question qs (some t) page = .err 404) ↔
        ∀ q ∈ qs, containsCI t q.question = false) ∧
      (∀ res, search_question qs (some t) page = .ok res →
        (∀ q ∈ res.questions, containsCI t q.question = true) ∧
        res.current_category = [])) := by
  refine ⟨fun qs' page' => rfl, fun qs' page' => rfl, fun ht => ⟨?_, ?_⟩⟩
  · rw [search_question_eq qs t page ht]
    have hiff : searchMatches qs t = [] ↔ ∀ q ∈ qs, containsCI t q.question = false := by
      unfold searchMatches
      rw [List.filter_eq_nil_iff]
      constructor
      · intro h q hq
        have := h q (mem_orderById.mpr hq)
        rw [likeMatch_eq_containsCI t hw] at this
        simpa using this
      · intro h q hq
        rw [likeMatch_eq_containsCI t hw]
        simp [h q (mem_orderById.mp hq)]
    by_cases h : (searchMatches qs t).length = 0
    · rw [if_pos h]
      simp only [List.length_eq_zero] at h
      exact ⟨fun _ => hiff.mp h, fun _ => rfl⟩
    · rw [if_neg h]
      rw [List.length_eq_zero] at h  -- hmm h is negation
      constructor
      · intro hcon
        cases hcon
      · intro hall
        exact absurd (hiff.mpr hall) h
  · intro res hres
    rw [search_question_eq qs t page ht] at hres
    by_cases h : (searchMatches qs t).length = 0
    · rw [if_pos h] at hres
      cases hres
    · rw [if_neg h] at hres
      injection hres with h2
      rw [← h2]
      refine ⟨?_, rfl⟩
      intro q hq
      have hmem : q ∈ searchMatches qs t :=
        paginate_subset _ _ hq
      unfold searchMatches at hmem
      have := (List.mem_filter.mp hmem).2
      rwa [likeMatch_eq_containsCI t hw] at this

theorem Question.format_eq (q : Question) : q.format = q := rfl

/-- `play_quiz` with a parsed `previous_questions` list and no storage failure,
in closed form. -/
theorem play_quiz_some_eq (qs : List Question) (prev : List Nat)
    (category : Option Nat) (rand : Nat) :
    play_quiz qs (some prev) category rand false =
      if h : (quizCandidates qs prev category).length = 0 then .err 422
      else .ok ⟨((quizCandidates qs prev category).get
        ⟨rand % (quizCandidates qs prev category).length,
         Nat.mod_lt _ (Nat.pos_of_ne_zero h)⟩).format⟩ := rfl

/-- C3: the quiz candidate set is the stored questions with id outside
`previousIds`, restricted to the category when one is given; a success returns
one element of that set, each index below the candidate count being reached by
some draw (`random.choice` is uniform); 422 results from a missing/malformed
`previousIds`, an empty candidate set, or a storage error. -/
theorem C3_quiz_contract (qs : List Question) (prev : List Nat)
    (category : Option Nat) (rand : Nat) :
    (∀ q, q ∈ quizCandidates qs prev category ↔
      q ∈ qs ∧ q.id ∉ prev ∧ ∀ c, category = some c → q.category = c) ∧
    (∀ cat r, play_quiz qs none cat r false = .err 422) ∧
    (∀ p c r, play_quiz qs p c r true = .err 422) ∧
    (quizCandidates qs prev category = [] →
      play_quiz qs (some prev) category rand false = .err 422) ∧
    (quizCandidates qs prev category ≠ [] →
      ∃ out, play_quiz qs (some prev) category rand false = .ok out ∧
        out.question ∈ quizCandidates qs prev category) ∧
    (∀ i q, (quizCandidates qs prev category)[i]? = some q →
      play_quiz qs (some prev) category i false = .ok ⟨q⟩) := by
  refine ⟨?_, fun cat r => rfl, fun p c r => rfl, ?_, ?_, ?_⟩
  · intro q
    cases category with
    | none =>
      simp [quizCandidates, List.mem_filter]
    | some c =>
      simp only [quizCandidates, List.mem_filter, Bool.not_eq_true']
      constructor
      · rintro ⟨⟨hqs, hcat⟩, hid⟩
        refine ⟨hqs, ?_, ?_⟩
        · simpa using hid
        · intro c' hc'
          injection hc' with hc'
          rw [← hc']
          simpa using hcat
      · rintro ⟨hqs, hid, hcat⟩
        refine ⟨⟨hqs, ?_⟩, ?_⟩
        · simpa using hcat c rfl
        · simpa using hid
  · intro h
    rw [play_quiz_some_eq, dif_pos (by rw [h]; rfl)]
  · intro h
    have hlen : (quizCandidates qs prev category).length ≠ 0 :=
      fun hc => h (List.length_eq_zero.mp hc)
    rw [play_quiz_some_eq, dif_neg hlen]
    exact ⟨_, rfl, by rw [Question.format_eq]; exact List.get_mem _ _ _⟩
  · intro i q hq
    obtain ⟨hi, hgl⟩ := List.getElem?_eq_some.mp hq
    have hlen : (quizCandidates qs prev category).length ≠ 0 := by omega
    rw [play_quiz_some_eq, dif_neg hlen]
    have hmod : i % (quizCandidates qs prev category).length = i :=
      Nat.mod_eq_of_lt hi
    congr 1
    rw [Question.format_eq]
    congr 1
    rw [List.get_eq_getElem]
    simp only [hmod]
    exact hgl

/-- With pairwise-distinct ids, the rows matching an existing id form a
singleton — `one_or_none()` finds exactly one row. -/
theorem filter_id_singleton :
    ∀ (qs : List Question) (i : Nat),
      (qs.map (fun r => r.id)).Nodup → (∃ q ∈ qs, q.id = i) →
      ∃ q, qs.filter (fun r => r.id == i) = [q] ∧ q.id = i ∧ q ∈ qs
  | [], _, _, hex => absurd hex (by simp)
  | q :: qs, i, hnd, hex => by
    rw [List.map_cons, List.nodup_cons] at hnd
    by_cases hq : q.id = i
    · refine ⟨q, ?_, hq, List.mem_cons_self q qs⟩
      rw [List.filter_cons_of_pos (by simpa using hq)]
      have hnone : ∀ r ∈ qs, ¬((fun r => r.id == i) r = true) := by
        intro r hr hrid
        apply hnd.1
        rw [hq, ← show r.id = i by simpa using hrid]
        exact List.mem_map_of_mem _ hr
      rw [List.filter_eq_nil_iff.mpr hnone]
    · rw [List.filter_cons_of_neg (by simpa using hq)]
      have hex' : ∃ r ∈ qs, r.id = i := by
        obtain ⟨r, hr, hrid⟩ := hex
        rcases List.mem_cons.mp hr with h | h
        · exact absurd (h ▸ hrid) hq
        · exact ⟨r, h, hrid⟩
      obtain ⟨r, hfil, hrid, hrm⟩ := filter_id_singleton qs i hnd.2 hex'
      exact ⟨r, hfil, hrid, List.mem_cons_of_mem q hrm⟩

theorem remove_question_404 (qs : List Question) (i : Nat) (page : Option Int)
    (df : Bool) (h : ∀ q ∈ qs, q.id ≠ i) :
    remove_question qs i page df = (qs, .err 404) := by
  unfold remove_question
  rw [List.filter_eq_nil_iff.mpr (by intro q hq; simpa using h q hq)]

theorem remove_question_found (qs : List Question) (i : Nat) (page : Option Int)
    (df : Bool) (hnd : (qs.map (fun r => r.id)).Nodup) (hex : ∃ q ∈ qs, q.id = i) :
    remove_question qs i page df =
      if df then (qs, .err 422)
      else (qs.eraseP (fun r => r.id == i),
        .ok ⟨paginate_questions (page.getD 1)
              (orderById (qs.eraseP (fun r => r.id == i))),
             (orderById (qs.eraseP (fun r => r.id == i))).length, i⟩) := by
  obtain ⟨q, hfil, _, _⟩ := filter_id_singleton qs i hnd hex
  unfold remove_question
  rw [hfil]

/-- C4 counterexample: the claim says the success response re-paginates at the
default page (page 1), but the handler paginates at the `page` query argument
of the DELETE request.  With 11 stored questions, deleting id 11 with `page=2`
yields an empty `questions` array, while page 1 of the 10 remaining questions
is non-empty. -/
theorem C4_counterexample :
    (remove_question ((List.range 11).map (fun i => ⟨i + 1, [], [], 1, 1⟩))
        11 (some 2) false).2 = .ok ⟨[], 10, 11⟩ ∧
    paginate_questions 1 (orderById
      ((remove_question ((List.range 11).map (fun i => ⟨i + 1, [], [], 1, 1⟩))
        11 (some 2) false).1)) ≠ [] := by
  decide

/-- C4 (amended): `DELETE /questions/{id}` is 404 when no question has the id;
a storage failure rolls the mutation back (store unchanged) and yields 422; on
success the response carries the remaining questions re-paginated at the page
given by the request's `page` query argument (page 1 when absent), the
remaining total count, and the deleted id. -/
theorem C4_delete_contract (qs : List Question) (i : Nat) (page : Option Int)
    (hnd : (qs.map (fun r => r.id)).Nodup) :
    ((∀ q ∈ qs, q.id ≠ i) → ∀ df, remove_question qs i page df = (qs, .err 404)) ∧
    ((∃ q ∈ qs, q.id = i) → remove_question qs i page true = (qs, .err 422)) ∧
    ((∃ q ∈ qs, q.id = i) →
      remove_question qs i page false =
        (qs.eraseP (fun r => r.id == i),
         .ok ⟨paginate_questions (page.getD 1)
               (orderById (qs.eraseP (fun r => r.id == i))),
              qs.length - 1, i⟩)) := by
  refine ⟨fun h df => remove_question_404 qs i page df h, ?_, ?_⟩
  · intro hex
    rw [remove_question_found qs i page true hnd hex, if_pos rfl]
  · intro hex
    rw [remove_question_found qs i page false hnd hex, if_neg (by simp)]
    have hlen : (orderById (qs.eraseP (fun r => r.id == i))).length =
        qs.length - 1 := by
      rw [length_orderById, List.length_eraseP]
      have hany : qs.any (fun r => r.id == i) = true := by
        obtain ⟨q, hq, hqi⟩ := hex
        rw [List.any_eq_true]
        exact ⟨q, hq, by simpa using hqi⟩
      rw [if_pos hany]
    rw [hlen]

/-- C5: a `POST /questions` with an empty (unparseable) body is rejected with
400 by `request.get_json()` before the `try` block, independently of the store
and of any storage failure — missing input is BadRequest, never 422. -/
theorem C5_create_empty_body (qs : List Question) (page : Option Int)
    (fresh : Nat) (dbFail : Bool) :
    create_question qs none page fresh dbFail = (qs, .err 400) := rfl

/-- With pairwise-distinct ids, no row surviving `eraseP` still carries the
erased id. -/
theorem id_not_mem_eraseP :
    ∀ (qs : List Question) (i : Nat), (qs.map (fun r => r.id)).Nodup →
      ∀ r ∈ qs.eraseP (fun r => r.id == i), r.id ≠ i
  | [], _, _, r, hr => by simp at hr
  | q :: qs, i, hnd, r, hr => by
    rw [List.map_cons, List.nodup_cons] at hnd
    by_cases hq : q.id = i
    · rw [List.eraseP_cons_of_pos (by simpa using hq)] at hr
      intro hri
      apply hnd.1
      rw [hq, ← hri]
      exact List.mem_map_of_mem _ hr
    · rw [List.eraseP_cons_of_neg (by simpa using hq)] at hr
      rcases List.mem_cons.mp hr with h | h
      · rw [h]; exact hq
      · exact id_not_mem_eraseP qs i hnd.2 r h

/-- C7: deleting a stored question succeeds, and every later successful
`GET /questions` listing no longer contains the deleted id, with
`total_questions` exactly one less than before the delete. -/
theorem C7_delete_then_list (qs : List Question) (cs : List Category)
    (q : Question) (hnd : (qs.map (fun r => r.id)).Nodup) (hq : q ∈ qs)
    (page page' : Option Int) :
    (∃ out, remove_question qs q.id page false =
      (qs.eraseP (fun r => r.id == q.id), .ok out)) ∧
    (∀ res, get_questions (qs.eraseP (fun r => r.id == q.id)) cs page' = .ok res →
      q.id ∉ res.questions.map (fun r => r.id) ∧
      res.total_questions + 1 = qs.length) := by
  constructor
  · rw [remove_question_found qs q.id page false hnd ⟨q, hq, rfl⟩, if_neg (by simp)]
    exact ⟨_, rfl⟩
  · intro res hres
    rw [get_questions_eq] at hres
    by_cases h : paginate_questions (page'.getD 1)
        (orderById (qs.eraseP (fun r => r.id == q.id))) = []
    · rw [if_pos h] at hres
      cases hres
    · rw [if_neg h] at hres
      injection hres with h2
      rw [← h2]
      constructor
      · intro hmem
        simp only [List.mem_map] at hmem
        obtain ⟨r, hr, hrid⟩ := hmem
        have hr2 : r ∈ qs.eraseP (fun r => r.id == q.id) :=
          mem_orderById.mp (paginate_subset _ _ hr)
        exact id_not_mem_eraseP qs q.id hnd r hr2 hrid
      · have hlen : (qs.eraseP (fun r => r.id == q.id)).length = qs.length - 1 := by
          rw [List.length_eraseP,
            if_pos (List.any_eq_true.mpr ⟨q, hq, by simp⟩)]
        have hpos : 0 < qs.length := List.length_pos.mpr (by
          rintro rfl
          simp at hq)
        show (qs.eraseP (fun r => r.id == q.id)).length + 1 = qs.length
        omega

theorem pyIndex_natCast (n a : Nat) : pyIndex n (a : Int) = min a n := by
  unfold pyIndex
  rw [if_neg (by omega)]
  simp

/-- Each position `k` of the materialized sequence lies on page `k/10 + 1` of
the pagination. -/
theorem paginate_contains_index (l : List Question) (k : Nat) (hk : k < l.length) :
    l.get ⟨k, hk⟩ ∈ paginate_questions (((k / 10 : Nat) : Int) + 1) l := by
  simp only [paginate_questions, pySlice, map_format]
  have hstart : (((k / 10 : Nat) : Int) + 1 - 1) * ((QUESTIONS_PER_PAGE : Nat) : Int) =
      ((k / 10 * 10 : Nat) : Int) := by
    push_cast [QUESTIONS_PER_PAGE]
    ring
  have hstop : ((k / 10 * 10 : Nat) : Int) + ((QUESTIONS_PER_PAGE : Nat) : Int) =
      ((k / 10 * 10 + 10 : Nat) : Int) := by
    push_cast [QUESTIONS_PER_PAGE]
    ring
  rw [hstart, hstop, pyIndex_natCast, pyIndex_natCast]
  have hs : min (k / 10 * 10) l.length = k / 10 * 10 := by omega
  rw [hs]
  have h1 : k - k / 10 * 10 <
      ((l.take (min (k / 10 * 10 + 10) l.length)).drop (k / 10 * 10)).length := by
    rw [List.length_drop, List.length_take]
    omega
  have h2 : ((l.take (min (k / 10 * 10 + 10) l.length)).drop (k / 10 * 10)).get
      ⟨k - k / 10 * 10, h1⟩ = l.get ⟨k, hk⟩ := by
    rw [List.get_eq_getElem, List.get_eq_getElem, List.getElem_drop,
      List.getElem_take]
    congr 1
    show k / 10 * 10 + (k - k / 10 * 10) = k
    omega
  rw [← h2]
  exact List.get_mem _ _ _

/-- C8: a successful `POST /questions` grows the store by exactly one row, the
response's total is one more than before, and the newly assigned id appears in
a subsequent `GET /questions` listing, on the page containing it. -/
theorem C8_create_then_list (qs : List Question) (cs : List Category)
    (b : CreateBody) (page : Option Int) (fresh : Nat)
    (hf : fresh ∉ qs.map (fun r => r.id)) :
    (∃ out, create_question qs (some b) page fresh false =
      (insertQuestion qs fresh b, .ok out) ∧
      out.total_questions = qs.length + 1 ∧ out.created = fresh) ∧
    (insertQuestion qs fresh b).countP (fun r => r.id == fresh) = 1 ∧
    (∃ p : Int, ∃ res,
      get_questions (insertQuestion qs fresh b) cs (some p) = .ok res ∧
      fresh ∈ res.questions.map (fun r => r.id)) := by
  refine ⟨?_, ?_, ?_⟩
  · refine ⟨_, rfl, ?_, rfl⟩
    show (orderById (insertQuestion qs fresh b)).length = qs.length + 1
    rw [length_orderById]
    simp [insertQuestion]
  · unfold insertQuestion
    rw [List.countP_append]
    have h0 : qs.countP (fun r => r.id == fresh) = 0 := by
      rw [List.countP_eq_zero]
      intro r hr
      simp only [beq_iff_eq]
      intro hcon
      exact hf (by rw [← hcon]; exact List.mem_map_of_mem _ hr)
    rw [h0]
    simp [List.countP_cons]
  · have hmem : (⟨fresh, b.question, b.answer, b.category, b.difficulty⟩ : Question) ∈
        orderById (insertQuestion qs fresh b) := by
      rw [mem_orderById]
      simp [insertQuestion]
    obtain ⟨k, hget⟩ := List.mem_iff_get.mp hmem
    have hin := paginate_contains_index (orderById (insertQuestion qs fresh b)) k.1 k.2
    rw [hget] at hin
    refine ⟨((k.1 / 10 : Nat) : Int) + 1, ?_⟩
    have hne : paginate_questions (((k.1 / 10 : Nat) : Int) + 1)
        (orderById (insertQuestion qs fresh b)) ≠ [] := by
      intro hcon
      rw [hcon] at hin
      simp at hin
    rw [get_questions_eq]
    have hgd : (some (((k.1 / 10 : Nat) : Int) + 1)).getD 1 =
        ((k.1 / 10 : Nat) : Int) + 1 := rfl
    rw [hgd, if_neg hne]
    refine ⟨_, rfl, ?_⟩
    exact List.mem_map_of_mem (fun r => r.id) hin

/-! ### Concrete witnesses -/

/-- A two-question demo store with distinct ids. -/
def exQs : List Question :=
  [⟨1, ['C', 'a', 't'], ['A'], 1, 1⟩, ⟨2, ['D', 'o', 'g'], ['B'], 2, 2⟩]

/-- A store of 21 questions with ids 1..21. -/
def qs21 : List Question :=
  (List.range 21).map (fun i => ⟨i + 1, [], [], 1, 1⟩)

/-- Witness for C2 at the wildcard-free term `"ca"` and the demo store. -/
theorem C2_search_contract_witness :
    wildcardFree ['c', 'a'] ∧
    ((∀ (qs' : List Question) (page' : Option Int),
      search_question qs' none page' = .err 400) ∧
    (∀ (qs' : List Question) (page' : Option Int),
      search_question qs' (some []) page' = .err 400) ∧
    ((['c', 'a'] : List Char) ≠ [] →
      ((search_question exQs (some ['c', 'a']) none = .err 404) ↔
        ∀ q ∈ exQs, containsCI ['c', 'a'] q.question = false) ∧
      (∀ res, search_question exQs (some ['c', 'a']) none = .ok res →
        (∀ q ∈ res.questions, containsCI ['c', 'a'] q.question = true) ∧
        res.current_category = []))) :=
  ⟨by decide, C2_search_contract exQs ['c', 'a'] none (by decide)⟩

/-- Witness for C4 at id 2 of the demo store. -/
theorem C4_delete_contract_witness :
    (exQs.map (fun r => r.id)).Nodup ∧
    (((∀ q ∈ exQs, q.id ≠ 2) → ∀ df,
        remove_question exQs 2 none df = (exQs, .err 404)) ∧
    ((∃ q ∈ exQs, q.id = 2) →
        remove_question exQs 2 none true = (exQs, .err 422)) ∧
    ((∃ q ∈ exQs, q.id = 2) →
      remove_question exQs 2 none false =
        (exQs.eraseP (fun r => r.id == 2),
         .ok ⟨paginate_questions ((none : Option Int).getD 1)
               (orderById (exQs.eraseP (fun r => r.id == 2))),
              exQs.length - 1, 2⟩))) :=
  ⟨by decide, C4_delete_contract exQs 2 none (by decide)⟩

/-- Witness for C7: deleting question 2 of the demo store. -/
theorem C7_delete_then_list_witness :
    (exQs.map (fun r => r.id)).Nodup ∧
    (⟨2, ['D', 'o', 'g'], ['B'], 2, 2⟩ : Question) ∈ exQs ∧
    ((∃ out, remove_question exQs 2 none false =
      (exQs.eraseP (fun r => r.id == 2), .ok out)) ∧
    (∀ res, get_questions (exQs.eraseP (fun r => r.id == 2)) [] none = .ok res →
      2 ∉ res.questions.map (fun r => r.id) ∧
      res.total_questions + 1 = exQs.length)) :=
  ⟨by decide, by decide,
    C7_delete_then_list exQs [] ⟨2, ['D', 'o', 'g'], ['B'], 2, 2⟩
      (by decide) (by decide) none none⟩

/-- Witness for C8: creating a question with fresh id 3 on the demo store. -/
theorem C8_create_then_list_witness :
    (3 ∉ exQs.map (fun r => r.id)) ∧
    ((∃ out, create_question exQs (some ⟨['N'], ['M'], 1, 1⟩) none 3 false =
      (insertQuestion exQs 3 ⟨['N'], ['M'], 1, 1⟩, .ok out) ∧
      out.total_questions = exQs.length + 1 ∧ out.created = 3) ∧
    (insertQuestion exQs 3 ⟨['N'], ['M'], 1, 1⟩).countP (fun r => r.id == 3) = 1 ∧
    (∃ p : Int, ∃ res,
      get_questions (insertQuestion exQs 3 ⟨['N'], ['M'], 1, 1⟩) [] (some p) = .ok res ∧
      3 ∈ res.questions.map (fun r => r.id))) :=
  ⟨by decide, C8_create_then_list exQs [] ⟨['N'], ['M'], 1, 1⟩ none 3 (by decide)⟩

/-- Witness for C9 on the 21-question store. -/
theorem C9_page_zero_and_negative_witness :
    20 < qs21.length ∧
    ((∀ (qs' : List Question) (cs' : List Category),
      get_questions qs' cs' (some 0) = .err 404) ∧
    (∃ res, get_questions qs21 [] (some (-1)) = .ok res ∧
      res.questions = ((orderById qs21).drop (qs21.length - 20)).take 10 ∧
      res.questions.length = 10)) :=
  ⟨by decide, C9_page_zero_and_negative qs21 [] (by decide)⟩

/-- Witness for C10: term `"a"` matches one question of the demo store and
page 5 is beyond the single page of matches. -/
theorem C10_search_page_beyond_matches_witness :
    (['a'] : List Char) ≠ [] ∧ searchMatches exQs ['a'] ≠ [] ∧
    ((searchMatches exQs ['a']).length : Int) ≤ (5 - 1) * 10 ∧
    (search_question exQs (some ['a']) (some 5) =
      .ok ⟨[], (searchMatches exQs ['a']).length, []⟩ ∧
    ((exQs.length : Int) ≤ (5 - 1) * 10 →
      get_questions exQs [] (some 5) = .err 404)) :=
  ⟨by decide, by decide, by decide,
    C10_search_page_beyond_matches exQs [] ['a'] 5 (by decide) (by decide) (by decide)⟩

end Trivia
